import Mathlib

/-!
Shallow embedding of `src/optimizers/adam_optimizer.ts` (AdamOptimizer).

Tensors are modelled as a shape together with a flat list of real data;
the elementwise tensor primitives of the host framework (add, mul by a
scalar, div, square, sqrt, zerosLike) become list operations over `ℝ`.
The optimizer's scalar fields (`c`, `eps`, `beta1`, `beta2`, `accBeta1`,
`accBeta2`, `one`) are real numbers; the moment maps and the engine's
`registeredVariables` store become functions from variable names.
`applyGradients` iterates the gradient map in list order via a fold.
-/

namespace TfjsAdam

/-- A tensor: a shape and flat real-valued data. -/
structure Tensor where
  shape : List ℕ
  data : List ℝ

namespace Tensor

/-- Elementwise addition (`a.add(b)`); the result keeps `a`'s shape. -/
def add (a b : Tensor) : Tensor :=
  ⟨a.shape, List.zipWith (fun x y => x + y) a.data b.data⟩

/-- Broadcast multiplication of a scalar with a tensor (`scalar.mul(a)`). -/
def smul (c : ℝ) (a : Tensor) : Tensor :=
  ⟨a.shape, a.data.map (fun x => c * x)⟩

/-- Division of a tensor by a broadcast scalar (`a.div(scalar)`). -/
noncomputable def divc (a : Tensor) (c : ℝ) : Tensor :=
  ⟨a.shape, a.data.map (fun x => x / c)⟩

/-- Elementwise division (`a.div(b)`); the result keeps `a`'s shape. -/
noncomputable def div (a b : Tensor) : Tensor :=
  ⟨a.shape, List.zipWith (fun x y => x / y) a.data b.data⟩

/-- Broadcast addition of a scalar to a tensor (`scalar.add(a)`). -/
def scalarAdd (c : ℝ) (a : Tensor) : Tensor :=
  ⟨a.shape, a.data.map (fun x => c + x)⟩

/-- Elementwise square (`a.square()`). -/
def square (a : Tensor) : Tensor :=
  ⟨a.shape, a.data.map (fun x => x * x)⟩

/-- Elementwise square root (`a.sqrt()`). -/
noncomputable def sqrt (a : Tensor) : Tensor :=
  ⟨a.shape, a.data.map Real.sqrt⟩

/-- `zerosLike(a)`: a zero tensor of the same shape (and data length). -/
def zerosLike (a : Tensor) : Tensor :=
  ⟨a.shape, a.data.map (fun _ => 0)⟩

/-- The `i`-th data element of a tensor (0 when out of range). -/
def elt (a : Tensor) (i : ℕ) : ℝ := a.data.getD i 0

end Tensor

/-- The mutable state of an `AdamOptimizer` together with the engine's
variable store (`ENV.engine.registeredVariables`), which `applyGradients`
reads and assigns. Scalar tensors of the source become plain reals. -/
structure AdamState where
  c : ℝ
  eps : ℝ
  beta1 : ℝ
  beta2 : ℝ
  accBeta1 : ℝ
  accBeta2 : ℝ
  one : ℝ
  accumulatedFirstMoment : String → Option Tensor
  accumulatedSecondMoment : String → Option Tensor
  registeredVariables : String → Tensor

/-- The `AdamOptimizer` constructor: `c = -learningRate`, `eps = epsilon`,
`accBeta1`/`accBeta2` start at `beta1`/`beta2`, `one = 1`, and both moment
maps start empty. -/
def AdamOptimizer (learningRate beta1 beta2 epsilon : ℝ)
    (registeredVariables : String → Tensor) : AdamState :=
  { c := -learningRate
    eps := epsilon
    beta1 := beta1
    beta2 := beta2
    accBeta1 := beta1
    accBeta2 := beta2
    one := 1
    accumulatedFirstMoment := fun _ => none
    accumulatedSecondMoment := fun _ => none
    registeredVariables := registeredVariables }

/-- One iteration of the `for (const variableName in variableGradients)`
loop of `applyGradients`: lazily created zero moments are read (a missing
entry behaves as `zerosLike value`, exactly what the lazy
`variable(zerosLike(value))` initialisation stores before it is read),
the new moments are computed and assigned back, and the variable is
assigned its new value. -/
noncomputable def AdamState.updateOne (s : AdamState) (variableName : String)
    (gradient : Tensor) : AdamState :=
  let value := s.registeredVariables variableName
  let firstMoment := (s.accumulatedFirstMoment variableName).getD (Tensor.zerosLike value)
  let secondMoment := (s.accumulatedSecondMoment variableName).getD (Tensor.zerosLike value)
  let newFirstMoment :=
    (Tensor.smul s.beta1 firstMoment).add (Tensor.smul (s.one - s.beta1) gradient)
  let newSecondMoment :=
    (Tensor.smul s.beta2 secondMoment).add (Tensor.smul (s.one - s.beta2) gradient.square)
  let biasCorrectedFirstMoment := newFirstMoment.divc (s.one - s.accBeta1)
  let biasCorrectedSecondMoment := newSecondMoment.divc (s.one - s.accBeta2)
  let newValue :=
    (Tensor.smul s.c (biasCorrectedFirstMoment.div
        (Tensor.scalarAdd s.eps biasCorrectedSecondMoment.sqrt))).add value
  { s with
    accumulatedFirstMoment :=
      Function.update s.accumulatedFirstMoment variableName (some newFirstMoment)
    accumulatedSecondMoment :=
      Function.update s.accumulatedSecondMoment variableName (some newSecondMoment)
    registeredVariables :=
      Function.update s.registeredVariables variableName newValue }

/-- `applyGradients`: fold the per-variable update across the gradient map
(in its iteration order), then advance `accBeta1 *= beta1` and
`accBeta2 *= beta2` once. -/
noncomputable def AdamState.applyGradients (s : AdamState)
    (variableGradients : List (String × Tensor)) : AdamState :=
  let s1 := variableGradients.foldl (fun t p => t.updateOne p.1 p.2) s
  { s1 with accBeta1 := s1.accBeta1 * s1.beta1, accBeta2 := s1.accBeta2 * s1.beta2 }

/-- Variant of `updateOne` that takes the accumulator values used for bias
correction as explicit arguments; used to state that every parameter in a
batch call reads one and the same pre-advance accumulator snapshot. -/
noncomputable def AdamState.updateOneWith (ab1 ab2 : ℝ) (s : AdamState)
    (variableName : String) (gradient : Tensor) : AdamState :=
  let value := s.registeredVariables variableName
  let firstMoment := (s.accumulatedFirstMoment variableName).getD (Tensor.zerosLike value)
  let secondMoment := (s.accumulatedSecondMoment variableName).getD (Tensor.zerosLike value)
  let newFirstMoment :=
    (Tensor.smul s.beta1 firstMoment).add (Tensor.smul (s.one - s.beta1) gradient)
  let newSecondMoment :=
    (Tensor.smul s.beta2 secondMoment).add (Tensor.smul (s.one - s.beta2) gradient.square)
  let biasCorrectedFirstMoment := newFirstMoment.divc (s.one - ab1)
  let biasCorrectedSecondMoment := newSecondMoment.divc (s.one - ab2)
  let newValue :=
    (Tensor.smul s.c (biasCorrectedFirstMoment.div
        (Tensor.scalarAdd s.eps biasCorrectedSecondMoment.sqrt))).add value
  { s with
    accumulatedFirstMoment :=
      Function.update s.accumulatedFirstMoment variableName (some newFirstMoment)
    accumulatedSecondMoment :=
      Function.update s.accumulatedSecondMoment variableName (some newSecondMoment)
    registeredVariables :=
      Function.update s.registeredVariables variableName newValue }

/-- Modelled from the spec: `math.scaledArrayAdd(scaleA, a, scaleB, b)` is an
external fused multiply-add primitive of the collaborating math engine (not
part of this file's source), computing `scaleA*a + scaleB*b`. -/
def scaledArrayAdd (scaleA : ℝ) (a : Tensor) (scaleB : ℝ) (b : Tensor) : Tensor :=
  (Tensor.smul scaleA a).add (Tensor.smul scaleB b)

/-- The per-node graph-state stores read and written by `afterBatch`:
activations, the summed gradients, and the per-node moment maps, keyed by a
node-output identity (modelled as `ℕ`). -/
structure GraphBatchState where
  activationArrayMap : ℕ → Tensor
  variableGradients : ℕ → Tensor
  firstMomentGraph : ℕ → Tensor
  secondMomentGraph : ℕ → Tensor

/-- The body of the `variableNodes.forEach` loop of `afterBatch`: update one
node's activation and moment entries. `cGraph` is the step scalar supplied by
the base `Optimizer` class (modelled from the spec: the batch-size-aware
scaling lives outside this component). -/
noncomputable def AdamState.afterBatchNode (s : AdamState) (cGraph : ℝ)
    (g : GraphBatchState) (node : ℕ) : GraphBatchState :=
  let oldVariable := g.activationArrayMap node
  let gradient := g.variableGradients node
  let oldFirstMoment := g.firstMomentGraph node
  let oldSecondMoment := g.secondMomentGraph node
  let newFirstMoment :=
    scaledArrayAdd s.beta1 oldFirstMoment (s.one - s.beta1) gradient
  let newSecondMoment :=
    scaledArrayAdd s.beta2 oldSecondMoment (s.one - s.beta2) gradient.square
  let biasCorrectedFirstMoment := newFirstMoment.divc (s.one - s.accBeta1)
  let biasCorrectedSecondMoment := newSecondMoment.divc (s.one - s.accBeta2)
  let newVariable :=
    scaledArrayAdd cGraph (biasCorrectedFirstMoment.div
        (Tensor.scalarAdd s.eps biasCorrectedSecondMoment.sqrt)) s.one oldVariable
  { g with
    activationArrayMap := Function.update g.activationArrayMap node newVariable
    firstMomentGraph := Function.update g.firstMomentGraph node newFirstMoment
    secondMomentGraph := Function.update g.secondMomentGraph node newSecondMoment }

/-- `afterBatch`: update every variable node, then advance the power
accumulators once (the node loop reads the pre-advance `accBeta1`/`accBeta2`,
as in the source, where the advance follows the `forEach`). -/
noncomputable def AdamState.afterBatch (s : AdamState) (cGraph : ℝ)
    (variableNodes : List ℕ) (g : GraphBatchState) : AdamState × GraphBatchState :=
  let g1 := variableNodes.foldl (fun gm node => s.afterBatchNode cGraph gm node) g
  ({ s with accBeta1 := s.accBeta1 * s.beta1, accBeta2 := s.accBeta2 * s.beta2 }, g1)

/-- The moment-map invariant: first- and second-moment entries exist for
exactly the same names, and every entry has the shape of the variable's
current value. -/
def MomentInvariant (s : AdamState) : Prop :=
  ∀ n : String,
    ((s.accumulatedFirstMoment n).isSome ↔ (s.accumulatedSecondMoment n).isSome) ∧
    (∀ t, s.accumulatedFirstMoment n = some t →
      t.shape = (s.registeredVariables n).shape) ∧
    (∀ t, s.accumulatedSecondMoment n = some t →
      t.shape = (s.registeredVariables n).shape)

/-- Every stored second-moment tensor is elementwise nonnegative. -/
def SecondMomentNonneg (s : AdamState) : Prop :=
  ∀ (n : String) (t : Tensor), s.accumulatedSecondMoment n = some t →
    ∀ x ∈ t.data, 0 ≤ x

namespace Tensor

@[simp] lemma shape_add (a b : Tensor) : (a.add b).shape = a.shape := rfl
@[simp] lemma data_add (a b : Tensor) :
    (a.add b).data = List.zipWith (fun x y => x + y) a.data b.data := rfl
@[simp] lemma shape_smul (c : ℝ) (a : Tensor) : (smul c a).shape = a.shape := rfl
@[simp] lemma data_smul (c : ℝ) (a : Tensor) :
    (smul c a).data = a.data.map (fun x => c * x) := rfl
@[simp] lemma shape_divc (a : Tensor) (c : ℝ) : (a.divc c).shape = a.shape := rfl
@[simp] lemma data_divc (a : Tensor) (c : ℝ) :
    (a.divc c).data = a.data.map (fun x => x / c) := rfl
@[simp] lemma shape_div (a b : Tensor) : (a.div b).shape = a.shape := rfl
@[simp] lemma data_div (a b : Tensor) :
    (a.div b).data = List.zipWith (fun x y => x / y) a.data b.data := rfl
@[simp] lemma shape_scalarAdd (c : ℝ) (a : Tensor) : (scalarAdd c a).shape = a.shape := rfl
@[simp] lemma data_scalarAdd (c : ℝ) (a : Tensor) :
    (scalarAdd c a).data = a.data.map (fun x => c + x) := rfl
@[simp] lemma shape_square (a : Tensor) : a.square.shape = a.shape := rfl
@[simp] lemma data_square (a : Tensor) : a.square.data = a.data.map (fun x => x * x) := rfl
@[simp] lemma shape_sqrt (a : Tensor) : a.sqrt.shape = a.shape := rfl
@[simp] lemma data_sqrt (a : Tensor) : a.sqrt.data = a.data.map Real.sqrt := rfl
@[simp] lemma shape_zerosLike (a : Tensor) : a.zerosLike.shape = a.shape := rfl
@[simp] lemma data_zerosLike (a : Tensor) :
    a.zerosLike.data = a.data.map (fun _ => (0 : ℝ)) := rfl

lemma elt_eq_getElem (a : Tensor) (i : ℕ) (h : i < a.data.length) :
    a.elt i = a.data.get ⟨i, h⟩ := List.getD_eq_getElem a.data 0 h

lemma elt_add (a b : Tensor) (i : ℕ) (ha : i < a.data.length) (hb : i < b.data.length) :
    (a.add b).elt i = a.elt i + b.elt i := by
  rw [elt_eq_getElem _ i (by simp; omega), elt_eq_getElem a i ha, elt_eq_getElem b i hb]
  simp [List.getElem_zipWith]

lemma elt_smul (c : ℝ) (a : Tensor) (i : ℕ) (ha : i < a.data.length) :
    (smul c a).elt i = c * a.elt i := by
  rw [elt_eq_getElem _ i (by simpa using ha), elt_eq_getElem a i ha]
  simp

lemma elt_divc (a : Tensor) (c : ℝ) (i : ℕ) (ha : i < a.data.length) :
    (a.divc c).elt i = a.elt i / c := by
  rw [elt_eq_getElem _ i (by simpa using ha), elt_eq_getElem a i ha]
  simp

lemma elt_div (a b : Tensor) (i : ℕ) (ha : i < a.data.length) (hb : i < b.data.length) :
    (a.div b).elt i = a.elt i / b.elt i := by
  rw [elt_eq_getElem _ i (by simp; omega), elt_eq_getElem a i ha, elt_eq_getElem b i hb]
  simp [List.getElem_zipWith]

lemma elt_scalarAdd (c : ℝ) (a : Tensor) (i : ℕ) (ha : i < a.data.length) :
    (scalarAdd c a).elt i = c + a.elt i := by
  rw [elt_eq_getElem _ i (by simpa using ha), elt_eq_getElem a i ha]
  simp

lemma elt_square (a : Tensor) (i : ℕ) (ha : i < a.data.length) :
    a.square.elt i = a.elt i * a.elt i := by
  rw [elt_eq_getElem _ i (by simpa using ha), elt_eq_getElem a i ha]
  simp

lemma elt_sqrt (a : Tensor) (i : ℕ) (ha : i < a.data.length) :
    a.sqrt.elt i = Real.sqrt (a.elt i) := by
  rw [elt_eq_getElem _ i (by simpa using ha), elt_eq_getElem a i ha]
  simp

lemma elt_zerosLike (a : Tensor) (i : ℕ) (ha : i < a.data.length) :
    a.zerosLike.elt i = 0 := by
  rw [elt_eq_getElem _ i (by simpa using ha)]
  simp

end Tensor

@[simp] lemma updateOne_c (s : AdamState) (n : String) (g : Tensor) :
    (s.updateOne n g).c = s.c := rfl
@[simp] lemma updateOne_eps (s : AdamState) (n : String) (g : Tensor) :
    (s.updateOne n g).eps = s.eps := rfl
@[simp] lemma updateOne_beta1 (s : AdamState) (n : String) (g : Tensor) :
    (s.updateOne n g).beta1 = s.beta1 := rfl
@[simp] lemma updateOne_beta2 (s : AdamState) (n : String) (g : Tensor) :
    (s.updateOne n g).beta2 = s.beta2 := rfl
@[simp] lemma updateOne_accBeta1 (s : AdamState) (n : String) (g : Tensor) :
    (s.updateOne n g).accBeta1 = s.accBeta1 := rfl
@[simp] lemma updateOne_accBeta2 (s : AdamState) (n : String) (g : Tensor) :
    (s.updateOne n g).accBeta2 = s.accBeta2 := rfl
@[simp] lemma updateOne_one (s : AdamState) (n : String) (g : Tensor) :
    (s.updateOne n g).one = s.one := rfl

lemma foldl_updateOne_c (l : List (String × Tensor)) (s : AdamState) :
    (l.foldl (fun t p => t.updateOne p.1 p.2) s).c = s.c := by
  induction l generalizing s with
  | nil => rfl
  | cons p l ih => simp [List.foldl_cons, ih]

lemma foldl_updateOne_eps (l : List (String × Tensor)) (s : AdamState) :
    (l.foldl (fun t p => t.updateOne p.1 p.2) s).eps = s.eps := by
  induction l generalizing s with
  | nil => rfl
  | cons p l ih => simp [List.foldl_cons, ih]

lemma foldl_updateOne_beta1 (l : List (String × Tensor)) (s : AdamState) :
    (l.foldl (fun t p => t.updateOne p.1 p.2) s).beta1 = s.beta1 := by
  induction l generalizing s with
  | nil => rfl
  | cons p l ih => simp [List.foldl_cons, ih]

lemma foldl_updateOne_beta2 (l : List (String × Tensor)) (s : AdamState) :
    (l.foldl (fun t p => t.updateOne p.1 p.2) s).beta2 = s.beta2 := by
  induction l generalizing s with
  | nil => rfl
  | cons p l ih => simp [List.foldl_cons, ih]

lemma foldl_updateOne_accBeta1 (l : List (String × Tensor)) (s : AdamState) :
    (l.foldl (fun t p => t.updateOne p.1 p.2) s).accBeta1 = s.accBeta1 := by
  induction l generalizing s with
  | nil => rfl
  | cons p l ih => simp [List.foldl_cons, ih]

lemma foldl_updateOne_accBeta2 (l : List (String × Tensor)) (s : AdamState) :
    (l.foldl (fun t p => t.updateOne p.1 p.2) s).accBeta2 = s.accBeta2 := by
  induction l generalizing s with
  | nil => rfl
  | cons p l ih => simp [List.foldl_cons, ih]

lemma foldl_updateOne_one (l : List (String × Tensor)) (s : AdamState) :
    (l.foldl (fun t p => t.updateOne p.1 p.2) s).one = s.one := by
  induction l generalizing s with
  | nil => rfl
  | cons p l ih => simp [List.foldl_cons, ih]

@[simp] lemma applyGradients_accBeta1 (s : AdamState) (l : List (String × Tensor)) :
    (s.applyGradients l).accBeta1 = s.accBeta1 * s.beta1 := by
  simp [AdamState.applyGradients, foldl_updateOne_accBeta1, foldl_updateOne_beta1]

@[simp] lemma applyGradients_accBeta2 (s : AdamState) (l : List (String × Tensor)) :
    (s.applyGradients l).accBeta2 = s.accBeta2 * s.beta2 := by
  simp [AdamState.applyGradients, foldl_updateOne_accBeta2, foldl_updateOne_beta2]

@[simp] lemma applyGradients_beta1 (s : AdamState) (l : List (String × Tensor)) :
    (s.applyGradients l).beta1 = s.beta1 := by
  simp [AdamState.applyGradients, foldl_updateOne_beta1]

@[simp] lemma applyGradients_beta2 (s : AdamState) (l : List (String × Tensor)) :
    (s.applyGradients l).beta2 = s.beta2 := by
  simp [AdamState.applyGradients, foldl_updateOne_beta2]

@[simp] lemma applyGradients_c (s : AdamState) (l : List (String × Tensor)) :
    (s.applyGradients l).c = s.c := by
  simp [AdamState.applyGradients, foldl_updateOne_c]

@[simp] lemma applyGradients_eps (s : AdamState) (l : List (String × Tensor)) :
    (s.applyGradients l).eps = s.eps := by
  simp [AdamState.applyGradients, foldl_updateOne_eps]

@[simp] lemma applyGradients_one (s : AdamState) (l : List (String × Tensor)) :
    (s.applyGradients l).one = s.one := by
  simp [AdamState.applyGradients, foldl_updateOne_one]

lemma updateOne_firstMoment_ne (s : AdamState) (n : String) (g : Tensor)
    (m : String) (h : m ≠ n) :
    (s.updateOne n g).accumulatedFirstMoment m = s.accumulatedFirstMoment m := by
  simp [AdamState.updateOne, Function.update_noteq h]

lemma updateOne_secondMoment_ne (s : AdamState) (n : String) (g : Tensor)
    (m : String) (h : m ≠ n) :
    (s.updateOne n g).accumulatedSecondMoment m = s.accumulatedSecondMoment m := by
  simp [AdamState.updateOne, Function.update_noteq h]

lemma updateOne_vars_ne (s : AdamState) (n : String) (g : Tensor)
    (m : String) (h : m ≠ n) :
    (s.updateOne n g).registeredVariables m = s.registeredVariables m := by
  simp [AdamState.updateOne, Function.update_noteq h]

lemma updateOne_firstMoment_self (s : AdamState) (n : String) (g : Tensor) :
    (s.updateOne n g).accumulatedFirstMoment n =
      some ((Tensor.smul s.beta1 ((s.accumulatedFirstMoment n).getD
          (Tensor.zerosLike (s.registeredVariables n)))).add
        (Tensor.smul (s.one - s.beta1) g)) := by
  simp [AdamState.updateOne]

lemma updateOne_secondMoment_self (s : AdamState) (n : String) (g : Tensor) :
    (s.updateOne n g).accumulatedSecondMoment n =
      some ((Tensor.smul s.beta2 ((s.accumulatedSecondMoment n).getD
          (Tensor.zerosLike (s.registeredVariables n)))).add
        (Tensor.smul (s.one - s.beta2) g.square)) := by
  simp [AdamState.updateOne]

lemma updateOne_vars_self (s : AdamState) (n : String) (g : Tensor) :
    (s.updateOne n g).registeredVariables n =
      (Tensor.smul s.c
        ((((Tensor.smul s.beta1 ((s.accumulatedFirstMoment n).getD
              (Tensor.zerosLike (s.registeredVariables n)))).add
            (Tensor.smul (s.one - s.beta1) g)).divc (s.one - s.accBeta1)).div
          (Tensor.scalarAdd s.eps
            ((((Tensor.smul s.beta2 ((s.accumulatedSecondMoment n).getD
                  (Tensor.zerosLike (s.registeredVariables n)))).add
                (Tensor.smul (s.one - s.beta2) g.square)).divc
                (s.one - s.accBeta2)).sqrt)))).add (s.registeredVariables n) := by
  simp [AdamState.updateOne]

/-- Claim C1: for every parameter with gradient `g` and current value `v`
processed in one `applyGradients` call, the update computes
`newFirst = beta1 * firstMoment + (1 - beta1) * g` and
`newSecond = beta2 * secondMoment + (1 - beta2) * g^2`, bias-corrects them by
the pre-update accumulators `(1 - accBeta1)` and `(1 - accBeta2)`, assigns the
parameter `v + (-learningRate) * biasCorrectedFirst /
(epsilon + sqrt biasCorrectedSecond)` elementwise, and stores `newFirst` and
`newSecond` back into the moment maps. -/
theorem adam_updateOne_per_parameter_formula
    (s : AdamState) (name : String) (g : Tensor) (learningRate : ℝ)
    (v fm sm nf ns : Tensor)
    (hone : s.one = 1) (hc : s.c = -learningRate)
    (hv : v = s.registeredVariables name)
    (hfm : fm = (s.accumulatedFirstMoment name).getD (Tensor.zerosLike v))
    (hsm : sm = (s.accumulatedSecondMoment name).getD (Tensor.zerosLike v))
    (hnf : nf = (Tensor.smul s.beta1 fm).add (Tensor.smul (1 - s.beta1) g))
    (hns : ns = (Tensor.smul s.beta2 sm).add (Tensor.smul (1 - s.beta2) g.square))
    (hlg : g.data.length = v.data.length)
    (hlf : fm.data.length = v.data.length)
    (hls : sm.data.length = v.data.length) :
    (s.updateOne name g).accumulatedFirstMoment name = some nf ∧
    (s.updateOne name g).accumulatedSecondMoment name = some ns ∧
    ∀ i, i < v.data.length →
      nf.elt i = s.beta1 * fm.elt i + (1 - s.beta1) * g.elt i ∧
      ns.elt i = s.beta2 * sm.elt i + (1 - s.beta2) * (g.elt i) ^ 2 ∧
      ((s.updateOne name g).registeredVariables name).elt i =
        v.elt i + (-learningRate) * (nf.elt i / (1 - s.accBeta1)) /
          (s.eps + Real.sqrt (ns.elt i / (1 - s.accBeta2))) := by
  have hnf_len : nf.data.length = v.data.length := by
    subst hnf; simp [hlf, hlg]
  have hns_len : ns.data.length = v.data.length := by
    subst hns; simp [hls, hlg]
  refine ⟨?_, ?_, ?_⟩
  · rw [updateOne_firstMoment_self, hone, ← hv, ← hfm, ← hnf]
  · rw [updateOne_secondMoment_self, hone, ← hv, ← hsm, ← hns]
  · intro i hi
    have hgi : i < g.data.length := by omega
    have hfi : i < fm.data.length := by omega
    have hsi : i < sm.data.length := by omega
    have hnfi : i < nf.data.length := by omega
    have hnsi : i < ns.data.length := by omega
    refine ⟨?_, ?_, ?_⟩
    · rw [hnf, Tensor.elt_add _ _ i (by simpa using hfi) (by simpa using hgi),
        Tensor.elt_smul _ _ i hfi, Tensor.elt_smul _ _ i hgi]
    · rw [hns, Tensor.elt_add _ _ i (by simpa using hsi) (by simpa using hgi),
        Tensor.elt_smul _ _ i hsi, Tensor.elt_smul _ _ i (by simpa using hgi),
        Tensor.elt_square _ i hgi]
      ring
    · rw [updateOne_vars_self, hone, ← hv, ← hfm, ← hsm, ← hnf, ← hns, hc]
      rw [Tensor.elt_add _ _ i (by simp; omega) hi,
        Tensor.elt_smul _ _ i (by simp; omega),
        Tensor.elt_div _ _ i (by simpa using hnfi) (by simpa using hnsi),
        Tensor.elt_divc _ _ i hnfi,
        Tensor.elt_scalarAdd _ _ i (by simpa using hnsi),
        Tensor.elt_sqrt _ i (by simpa using hnsi),
        Tensor.elt_divc _ _ i hnsi]
      ring

lemma Tensor.ext (a b : Tensor) (h1 : a.shape = b.shape) (h2 : a.data = b.data) :
    a = b := by
  cases a; cases b; cases h1; cases h2; rfl

lemma zipWith_map_same (f : ℝ → ℝ → ℝ) (g h : ℝ → ℝ) (d : List ℝ) :
    List.zipWith f (d.map g) (d.map h) = d.map (fun x => f (g x) (h x)) := by
  induction d with
  | nil => rfl
  | cons a d ih => simp [ih]

lemma zipWith_add_map_zero_left (d l : List ℝ) (h : l.length = d.length) :
    List.zipWith (fun x y => x + y) (d.map fun _ => (0 : ℝ)) l = l := by
  induction d generalizing l with
  | nil =>
    cases l with
    | nil => rfl
    | cons b l => simp at h
  | cons a d ih =>
    cases l with
    | nil => simp at h
    | cons b l =>
      simp only [List.length_cons, Nat.succ.injEq] at h
      simp only [List.map_cons, List.zipWith_cons_cons, zero_add]
      rw [ih l h]

lemma map_smul_map_zero (c : ℝ) (d : List ℝ) :
    (d.map (fun _ => (0 : ℝ))).map (fun x => c * x) = d.map (fun _ => (0 : ℝ)) := by
  simp [List.map_map, Function.comp]

/-- A sample zero scalar tensor used by concrete witnesses. -/
def t0 : Tensor := ⟨[], [0]⟩

/-- A sample freshly constructed optimizer used by concrete witnesses. -/
noncomputable def exampleAdam : AdamState := AdamOptimizer 1 (1/2) (1/2) 1 (fun _ => t0)

/-- Witness for C1: the per-parameter formula theorem applied at a concrete
fresh optimizer with a single scalar parameter and zero gradient. -/
theorem adam_updateOne_per_parameter_formula_witness :
    (exampleAdam.updateOne "p" t0).accumulatedFirstMoment "p" =
      some ((Tensor.smul (1/2) t0).add (Tensor.smul (1 - 1/2) t0)) :=
  (adam_updateOne_per_parameter_formula exampleAdam "p" t0 1 t0 t0 t0
    ((Tensor.smul (1/2) t0).add (Tensor.smul (1 - 1/2) t0))
    ((Tensor.smul (1/2) t0).add (Tensor.smul (1 - 1/2) t0.square))
    rfl rfl rfl rfl rfl rfl rfl rfl rfl rfl).1

/-- Counterexample to C2 as stated: on a fresh optimizer
(`learningRate = 1`, `beta1 = 1/2`, `beta2 = 9/16`, `epsilon = 1`) with a
single scalar parameter `v = 0` and gradient `g = 1`, the code's new
parameter value (`-1/2`) differs from the claimed
`v - learningRate * newFirst/(1-beta1^2) / (epsilon + sqrt(newSecond/(1-beta2^2)))`
(which is `-10/27`): the code bias-corrects by the pre-update accumulators
`(1-beta1)` and `(1-beta2)`, not `(1-beta1^2)` and `(1-beta2^2)`. -/
theorem adam_first_call_squared_denominator_counterexample :
    ¬ ((((AdamOptimizer 1 (1/2) (9/16) 1 (fun _ => ⟨[], [0]⟩)).applyGradients
          [("p", ⟨[], [1]⟩)]).registeredVariables "p").elt 0 =
        0 - 1 * ((1 - 1/2) * 1 / (1 - (1/2) ^ 2)) /
          (1 + Real.sqrt ((1 - 9/16) * 1 ^ 2 / (1 - (9/16) ^ 2)))) := by
  have hs : Real.sqrt ((1 - 9/16) * 1 ^ 2 / (1 - (9/16 : ℝ) ^ 2)) = 4/5 := by
    rw [show ((1:ℝ) - 9/16) * 1 ^ 2 / (1 - (9/16) ^ 2) = (4/5) ^ 2 by norm_num]
    exact Real.sqrt_sq (by norm_num)
  have hL : (((AdamOptimizer 1 (1/2) (9/16) 1 (fun _ => ⟨[], [0]⟩)).applyGradients
      [("p", ⟨[], [1]⟩)]).registeredVariables "p").elt 0 = -(1/2) := by
    simp only [AdamState.applyGradients, List.foldl_cons, List.foldl_nil,
      AdamState.updateOne, AdamOptimizer, Function.update_same, Option.getD,
      Tensor.elt, Tensor.add, Tensor.smul, Tensor.divc, Tensor.div,
      Tensor.scalarAdd, Tensor.square, Tensor.sqrt, Tensor.zerosLike,
      List.map_cons, List.map_nil, List.zipWith_cons_cons, List.zipWith_nil_right,
      List.getD]
    norm_num
  rw [hL, hs]
  norm_num

/-- Claim C2 (amended): after one `applyGradients` call on a fresh optimizer
with a single parameter of value `v` and gradient `g` (shaped like `v`), the
stored moments are `newFirst = (1-beta1)*g` and `newSecond = (1-beta2)*g^2`,
and the new parameter value equals
`v - learningRate * newFirst/(1-beta1) / (epsilon + sqrt(newSecond/(1-beta2)))`
— the bias-correction denominators are the fresh pre-update accumulators
`beta1` and `beta2`, not their squares. -/
theorem adam_first_call_formula
    (learningRate beta1 beta2 epsilon : ℝ) (vars0 : String → Tensor)
    (p : String) (g : Tensor)
    (hb1 : 0 < beta1) (hb1' : beta1 < 1) (hb2 : 0 < beta2) (hb2' : beta2 < 1)
    (hlr : 0 < learningRate) (heps : 0 < epsilon)
    (hshape : g.shape = (vars0 p).shape)
    (hlen : g.data.length = (vars0 p).data.length) :
    ((AdamOptimizer learningRate beta1 beta2 epsilon vars0).applyGradients
        [(p, g)]).accumulatedFirstMoment p = some (Tensor.smul (1 - beta1) g) ∧
    ((AdamOptimizer learningRate beta1 beta2 epsilon vars0).applyGradients
        [(p, g)]).accumulatedSecondMoment p = some (Tensor.smul (1 - beta2) g.square) ∧
    ∀ i, i < (vars0 p).data.length →
      (((AdamOptimizer learningRate beta1 beta2 epsilon vars0).applyGradients
          [(p, g)]).registeredVariables p).elt i =
        (vars0 p).elt i - learningRate * ((1 - beta1) * g.elt i / (1 - beta1)) /
          (epsilon + Real.sqrt ((1 - beta2) * (g.elt i) ^ 2 / (1 - beta2))) := by
  have happ : (AdamOptimizer learningRate beta1 beta2 epsilon vars0).applyGradients [(p, g)] =
      { (AdamOptimizer learningRate beta1 beta2 epsilon vars0).updateOne p g with
        accBeta1 := beta1 * beta1, accBeta2 := beta2 * beta2 } := by
    simp [AdamState.applyGradients, AdamOptimizer]
  refine ⟨?_, ?_, ?_⟩
  · rw [happ]
    show ((AdamOptimizer learningRate beta1 beta2 epsilon vars0).updateOne
        p g).accumulatedFirstMoment p = _
    rw [updateOne_firstMoment_self]
    refine congrArg some (Tensor.ext _ _ ?_ ?_)
    · simpa [AdamOptimizer] using hshape.symm
    · simp only [AdamOptimizer, Tensor.data_add, Tensor.data_smul, Tensor.data_zerosLike,
        Option.getD]
      rw [map_smul_map_zero, zipWith_add_map_zero_left _ _ (by simp [hlen])]
  · rw [happ]
    show ((AdamOptimizer learningRate beta1 beta2 epsilon vars0).updateOne
        p g).accumulatedSecondMoment p = _
    rw [updateOne_secondMoment_self]
    refine congrArg some (Tensor.ext _ _ ?_ ?_)
    · simpa [AdamOptimizer] using hshape.symm
    · simp only [AdamOptimizer, Tensor.data_add, Tensor.data_smul, Tensor.data_zerosLike,
        Tensor.data_square, Option.getD]
      rw [map_smul_map_zero, zipWith_add_map_zero_left _ _ (by simp [hlen])]
  · intro i hi
    rw [happ]
    show (((AdamOptimizer learningRate beta1 beta2 epsilon vars0).updateOne
        p g).registeredVariables p).elt i = _
    rw [updateOne_vars_self]
    have hgi : i < g.data.length := by omega
    have hvz : i < ((vars0 p).zerosLike).data.length := by simpa using hi
    simp only [AdamOptimizer, Option.getD]
    rw [Tensor.elt_add _ _ i (by simp; omega) (by simpa using hi),
      Tensor.elt_smul _ _ i (by simp; omega),
      Tensor.elt_div _ _ i (by simp; omega) (by simp; omega),
      Tensor.elt_divc _ _ i (by simp; omega),
      Tensor.elt_scalarAdd _ _ i (by simp; omega),
      Tensor.elt_sqrt _ i (by simp; omega),
      Tensor.elt_divc _ _ i (by simp; omega),
      Tensor.elt_add _ _ i (by simpa using hvz) (by simp; omega),
      Tensor.elt_add _ _ i (by simpa using hvz) (by simp; omega),
      Tensor.elt_smul _ _ i hvz, Tensor.elt_smul _ _ i hvz,
      Tensor.elt_smul _ _ i hgi, Tensor.elt_smul _ _ i (by simpa using hgi),
      Tensor.elt_square _ i hgi, Tensor.elt_zerosLike _ i (by simpa using hi)]
    ring

/-- Witness for the amended C2 at a concrete valid input. -/
theorem adam_first_call_formula_witness :
    ((AdamOptimizer 1 (1/2) (1/2) 1 (fun _ => t0)).applyGradients
        [("p", t0)]).accumulatedFirstMoment "p" = some (Tensor.smul (1 - 1/2) t0) :=
  (adam_first_call_formula 1 (1/2) (1/2) 1 (fun _ => t0) "p" t0
    (by norm_num) (by norm_num) (by norm_num) (by norm_num) (by norm_num)
    (by norm_num) rfl rfl).1

lemma foldl_applyGradients_beta1 (calls : List (List (String × Tensor))) (s : AdamState) :
    (calls.foldl AdamState.applyGradients s).beta1 = s.beta1 := by
  induction calls generalizing s with
  | nil => rfl
  | cons c calls ih => simp [List.foldl_cons, ih]

lemma foldl_applyGradients_beta2 (calls : List (List (String × Tensor))) (s : AdamState) :
    (calls.foldl AdamState.applyGradients s).beta2 = s.beta2 := by
  induction calls generalizing s with
  | nil => rfl
  | cons c calls ih => simp [List.foldl_cons, ih]

lemma foldl_applyGradients_accBeta1 (calls : List (List (String × Tensor))) (s : AdamState) :
    (calls.foldl AdamState.applyGradients s).accBeta1 =
      s.accBeta1 * s.beta1 ^ calls.length := by
  induction calls generalizing s with
  | nil => simp
  | cons c calls ih =>
    simp [List.foldl_cons, ih]
    ring

lemma foldl_applyGradients_accBeta2 (calls : List (List (String × Tensor))) (s : AdamState) :
    (calls.foldl AdamState.applyGradients s).accBeta2 =
      s.accBeta2 * s.beta2 ^ calls.length := by
  induction calls generalizing s with
  | nil => simp
  | cons c calls ih =>
    simp [List.foldl_cons, ih]
    ring

/-- Claim C3: the power accumulators start at `beta1`, `beta2` at
construction, advance by exactly one multiplication per `applyGradients`
call regardless of the call's gradient map, and after `N` calls equal
`beta1^(N+1)` and `beta2^(N+1)`. -/
theorem adam_accumulator_powers
    (learningRate beta1 beta2 epsilon : ℝ) (vars0 : String → Tensor)
    (calls : List (List (String × Tensor))) :
    (calls.foldl AdamState.applyGradients
        (AdamOptimizer learningRate beta1 beta2 epsilon vars0)).accBeta1 =
      beta1 ^ (calls.length + 1) ∧
    (calls.foldl AdamState.applyGradients
        (AdamOptimizer learningRate beta1 beta2 epsilon vars0)).accBeta2 =
      beta2 ^ (calls.length + 1) ∧
    (AdamOptimizer learningRate beta1 beta2 epsilon vars0).accBeta1 = beta1 ∧
    (AdamOptimizer learningRate beta1 beta2 epsilon vars0).accBeta2 = beta2 ∧
    ∀ (s : AdamState) (call : List (String × Tensor)),
      (s.applyGradients call).accBeta1 = s.accBeta1 * s.beta1 ∧
      (s.applyGradients call).accBeta2 = s.accBeta2 * s.beta2 := by
  refine ⟨?_, ?_, rfl, rfl, fun s call => ⟨applyGradients_accBeta1 s call,
    applyGradients_accBeta2 s call⟩⟩
  · rw [foldl_applyGradients_accBeta1]
    simp [AdamOptimizer, pow_succ, mul_comm]
  · rw [foldl_applyGradients_accBeta2]
    simp [AdamOptimizer, pow_succ, mul_comm]

lemma updateOneWith_eq_updateOne (ab1 ab2 : ℝ) (t : AdamState) (n : String)
    (g : Tensor) (h1 : t.accBeta1 = ab1) (h2 : t.accBeta2 = ab2) :
    AdamState.updateOneWith ab1 ab2 t n g = t.updateOne n g := by
  subst h1; subst h2; rfl

lemma foldl_updateOneWith_eq (grads : List (String × Tensor)) (ab1 ab2 : ℝ) :
    ∀ t : AdamState, t.accBeta1 = ab1 → t.accBeta2 = ab2 →
      grads.foldl (fun u q => AdamState.updateOneWith ab1 ab2 u q.1 q.2) t =
        grads.foldl (fun u q => u.updateOne q.1 q.2) t := by
  induction grads with
  | nil => intro t _ _; rfl
  | cons q grads ih =>
    intro t h1 h2
    simp only [List.foldl_cons]
    rw [updateOneWith_eq_updateOne ab1 ab2 t q.1 q.2 h1 h2]
    exact ih (t.updateOne q.1 q.2) (by simpa using h1) (by simpa using h2)

/-- Claim C4: one `applyGradients` call is a two-phase protocol — every
parameter's bias correction reads the same pre-advance accumulator snapshot
(`accBeta1`, `accBeta2` of the state at call entry), and the accumulators
advance only once, after all per-parameter updates. -/
theorem adam_batch_accumulator_snapshot (s : AdamState)
    (grads : List (String × Tensor)) :
    s.applyGradients grads =
      { grads.foldl (fun u q => AdamState.updateOneWith s.accBeta1 s.accBeta2 u q.1 q.2) s with
        accBeta1 := s.accBeta1 * s.beta1, accBeta2 := s.accBeta2 * s.beta2 } := by
  simp only [AdamState.applyGradients]
  rw [foldl_updateOneWith_eq grads s.accBeta1 s.accBeta2 s rfl rfl,
    foldl_updateOne_accBeta1, foldl_updateOne_accBeta2,
    foldl_updateOne_beta1, foldl_updateOne_beta2]

/-- The tensor that one update step stores as the new first moment. -/
noncomputable def newFirstMomentOf (s : AdamState) (n : String) (g : Tensor) : Tensor :=
  (Tensor.smul s.beta1 ((s.accumulatedFirstMoment n).getD
      (Tensor.zerosLike (s.registeredVariables n)))).add
    (Tensor.smul (s.one - s.beta1) g)

/-- The tensor that one update step stores as the new second moment. -/
noncomputable def newSecondMomentOf (s : AdamState) (n : String) (g : Tensor) : Tensor :=
  (Tensor.smul s.beta2 ((s.accumulatedSecondMoment n).getD
      (Tensor.zerosLike (s.registeredVariables n)))).add
    (Tensor.smul (s.one - s.beta2) g.square)

/-- The tensor that one update step assigns as the parameter's new value. -/
noncomputable def newValueOf (s : AdamState) (n : String) (g : Tensor) : Tensor :=
  (Tensor.smul s.c (((newFirstMomentOf s n g).divc (s.one - s.accBeta1)).div
      (Tensor.scalarAdd s.eps
        (((newSecondMomentOf s n g).divc (s.one - s.accBeta2)).sqrt)))).add
    (s.registeredVariables n)

lemma updateOne_eq (s : AdamState) (n : String) (g : Tensor) :
    s.updateOne n g =
      { s with
        accumulatedFirstMoment :=
          Function.update s.accumulatedFirstMoment n (some (newFirstMomentOf s n g))
        accumulatedSecondMoment :=
          Function.update s.accumulatedSecondMoment n (some (newSecondMomentOf s n g))
        registeredVariables :=
          Function.update s.registeredVariables n (newValueOf s n g) } := rfl

lemma updateOne_firstMoment_at (s : AdamState) (n : String) (g : Tensor) :
    (s.updateOne n g).accumulatedFirstMoment n = some (newFirstMomentOf s n g) := by
  rw [updateOne_eq]; simp

lemma updateOne_secondMoment_at (s : AdamState) (n : String) (g : Tensor) :
    (s.updateOne n g).accumulatedSecondMoment n = some (newSecondMomentOf s n g) := by
  rw [updateOne_eq]; simp

lemma updateOne_vars_at (s : AdamState) (n : String) (g : Tensor) :
    (s.updateOne n g).registeredVariables n = newValueOf s n g := by
  rw [updateOne_eq]; simp

lemma AdamState.ext' (a b : AdamState)
    (h1 : a.c = b.c) (h2 : a.eps = b.eps) (h3 : a.beta1 = b.beta1)
    (h4 : a.beta2 = b.beta2) (h5 : a.accBeta1 = b.accBeta1)
    (h6 : a.accBeta2 = b.accBeta2) (h7 : a.one = b.one)
    (h8 : a.accumulatedFirstMoment = b.accumulatedFirstMoment)
    (h9 : a.accumulatedSecondMoment = b.accumulatedSecondMoment)
    (h10 : a.registeredVariables = b.registeredVariables) : a = b := by
  cases a; cases b
  simp only at h1 h2 h3 h4 h5 h6 h7 h8 h9 h10
  subst h1 h2 h3 h4 h5 h6 h7 h8 h9 h10
  rfl

lemma newFirstMomentOf_congr (s t : AdamState) (n : String) (g : Tensor)
    (hb : s.beta1 = t.beta1) (ho : s.one = t.one)
    (hm : s.accumulatedFirstMoment n = t.accumulatedFirstMoment n)
    (hv : s.registeredVariables n = t.registeredVariables n) :
    newFirstMomentOf s n g = newFirstMomentOf t n g := by
  simp [newFirstMomentOf, hb, ho, hm, hv]

lemma newSecondMomentOf_congr (s t : AdamState) (n : String) (g : Tensor)
    (hb : s.beta2 = t.beta2) (ho : s.one = t.one)
    (hm : s.accumulatedSecondMoment n = t.accumulatedSecondMoment n)
    (hv : s.registeredVariables n = t.registeredVariables n) :
    newSecondMomentOf s n g = newSecondMomentOf t n g := by
  simp [newSecondMomentOf, hb, ho, hm, hv]

lemma newValueOf_congr (s t : AdamState) (n : String) (g : Tensor)
    (hc : s.c = t.c) (he : s.eps = t.eps)
    (hb1 : s.beta1 = t.beta1) (hb2 : s.beta2 = t.beta2)
    (ha1 : s.accBeta1 = t.accBeta1) (ha2 : s.accBeta2 = t.accBeta2)
    (ho : s.one = t.one)
    (hm1 : s.accumulatedFirstMoment n = t.accumulatedFirstMoment n)
    (hm2 : s.accumulatedSecondMoment n = t.accumulatedSecondMoment n)
    (hv : s.registeredVariables n = t.registeredVariables n) :
    newValueOf s n g = newValueOf t n g := by
  rw [newValueOf, newValueOf, newFirstMomentOf_congr s t n g hb1 ho hm1 hv,
    newSecondMomentOf_congr s t n g hb2 ho hm2 hv, hc, he, ha1, ha2, ho, hv]

lemma updateOne_comm (s : AdamState) (n1 n2 : String) (g1 g2 : Tensor)
    (h : n1 ≠ n2) :
    (s.updateOne n1 g1).updateOne n2 g2 = (s.updateOne n2 g2).updateOne n1 g1 := by
  have r1 : ∀ (n m : String) (g : Tensor), m ≠ n →
      newFirstMomentOf (s.updateOne n g) m = newFirstMomentOf s m := by
    intro n m g hmn
    funext g'
    exact newFirstMomentOf_congr _ _ m g' (by simp) (by simp)
      (updateOne_firstMoment_ne s n g m hmn) (updateOne_vars_ne s n g m hmn)
  have r2 : ∀ (n m : String) (g : Tensor), m ≠ n →
      newSecondMomentOf (s.updateOne n g) m = newSecondMomentOf s m := by
    intro n m g hmn
    funext g'
    exact newSecondMomentOf_congr _ _ m g' (by simp) (by simp)
      (updateOne_secondMoment_ne s n g m hmn) (updateOne_vars_ne s n g m hmn)
  have r3 : ∀ (n m : String) (g : Tensor), m ≠ n →
      newValueOf (s.updateOne n g) m = newValueOf s m := by
    intro n m g hmn
    funext g'
    exact newValueOf_congr _ _ m g' (by simp) (by simp) (by simp) (by simp)
      (by simp) (by simp) (by simp)
      (updateOne_firstMoment_ne s n g m hmn) (updateOne_secondMoment_ne s n g m hmn)
      (updateOne_vars_ne s n g m hmn)
  apply AdamState.ext' <;> try rfl
  · show Function.update (Function.update s.accumulatedFirstMoment n1
        (some (newFirstMomentOf s n1 g1))) n2
        (some (newFirstMomentOf (s.updateOne n1 g1) n2 g2)) =
      Function.update (Function.update s.accumulatedFirstMoment n2
        (some (newFirstMomentOf s n2 g2))) n1
        (some (newFirstMomentOf (s.updateOne n2 g2) n1 g1))
    rw [congrFun (r1 n1 n2 g1 (Ne.symm h)) g2, congrFun (r1 n2 n1 g2 h) g1]
    exact Function.update_comm h _ _ _
  · show Function.update (Function.update s.accumulatedSecondMoment n1
        (some (newSecondMomentOf s n1 g1))) n2
        (some (newSecondMomentOf (s.updateOne n1 g1) n2 g2)) =
      Function.update (Function.update s.accumulatedSecondMoment n2
        (some (newSecondMomentOf s n2 g2))) n1
        (some (newSecondMomentOf (s.updateOne n2 g2) n1 g1))
    rw [congrFun (r2 n1 n2 g1 (Ne.symm h)) g2, congrFun (r2 n2 n1 g2 h) g1]
    exact Function.update_comm h _ _ _
  · show Function.update (Function.update s.registeredVariables n1
        (newValueOf s n1 g1)) n2 (newValueOf (s.updateOne n1 g1) n2 g2) =
      Function.update (Function.update s.registeredVariables n2
        (newValueOf s n2 g2)) n1 (newValueOf (s.updateOne n2 g2) n1 g1)
    rw [congrFun (r3 n1 n2 g1 (Ne.symm h)) g2, congrFun (r3 n2 n1 g2 h) g1]
    exact Function.update_comm h _ _ _

lemma applyGradients_perm (s : AdamState) (grads1 grads2 : List (String × Tensor))
    (hp : grads1.Perm grads2) (hnd : (grads1.map Prod.fst).Nodup) :
    s.applyGradients grads1 = s.applyGradients grads2 := by
  have hfold : grads1.foldl (fun u q => u.updateOne q.1 q.2) s =
      grads2.foldl (fun u q => u.updateOne q.1 q.2) s := by
    refine hp.foldl_eq' ?_ s
    intro x hx y hy z
    by_cases hxy : x = y
    · subst hxy; rfl
    · have hne : x.1 ≠ y.1 := fun hfst =>
        hxy (List.inj_on_of_nodup_map hnd hx hy hfst)
      exact updateOne_comm z x.1 y.1 x.2 y.2 hne
  simp only [AdamState.applyGradients, hfold]

/-- Claim C7: within one `applyGradients` call, the update of one parameter
name neither writes (its step leaves every other name's moments and value
unchanged) nor reads (its stored results depend only on the shared scalars
and its own name's entries) the state of any other name, updates of distinct
names commute, and the call's result is invariant under permuting the
iteration order of a duplicate-free gradient map. -/
theorem adam_update_isolation_and_order_independence :
    (∀ (s : AdamState) (n : String) (g : Tensor) (m : String), m ≠ n →
      (s.updateOne n g).accumulatedFirstMoment m = s.accumulatedFirstMoment m ∧
      (s.updateOne n g).accumulatedSecondMoment m = s.accumulatedSecondMoment m ∧
      (s.updateOne n g).registeredVariables m = s.registeredVariables m) ∧
    (∀ (s t : AdamState) (n : String) (g : Tensor),
      s.c = t.c → s.eps = t.eps → s.beta1 = t.beta1 → s.beta2 = t.beta2 →
      s.accBeta1 = t.accBeta1 → s.accBeta2 = t.accBeta2 → s.one = t.one →
      s.accumulatedFirstMoment n = t.accumulatedFirstMoment n →
      s.accumulatedSecondMoment n = t.accumulatedSecondMoment n →
      s.registeredVariables n = t.registeredVariables n →
      (s.updateOne n g).accumulatedFirstMoment n =
        (t.updateOne n g).accumulatedFirstMoment n ∧
      (s.updateOne n g).accumulatedSecondMoment n =
        (t.updateOne n g).accumulatedSecondMoment n ∧
      (s.updateOne n g).registeredVariables n =
        (t.updateOne n g).registeredVariables n) ∧
    (∀ (s : AdamState) (n1 n2 : String) (g1 g2 : Tensor), n1 ≠ n2 →
      (s.updateOne n1 g1).updateOne n2 g2 = (s.updateOne n2 g2).updateOne n1 g1) ∧
    (∀ (s : AdamState) (grads1 grads2 : List (String × Tensor)),
      grads1.Perm grads2 → (grads1.map Prod.fst).Nodup →
      s.applyGradients grads1 = s.applyGradients grads2) := by
  refine ⟨?_, ?_, updateOne_comm, applyGradients_perm⟩
  · intro s n g m hm
    exact ⟨updateOne_firstMoment_ne s n g m hm,
      updateOne_secondMoment_ne s n g m hm, updateOne_vars_ne s n g m hm⟩
  · intro s t n g hc he hb1 hb2 ha1 ha2 ho hm1 hm2 hv
    refine ⟨?_, ?_, ?_⟩
    · rw [updateOne_firstMoment_at, updateOne_firstMoment_at,
        newFirstMomentOf_congr s t n g hb1 ho hm1 hv]
    · rw [updateOne_secondMoment_at, updateOne_secondMoment_at,
        newSecondMomentOf_congr s t n g hb2 ho hm2 hv]
    · rw [updateOne_vars_at, updateOne_vars_at,
        newValueOf_congr s t n g hc he hb1 hb2 ha1 ha2 ho hm1 hm2 hv]

/-- Witness for C7: commutation, order independence and the write-frame
property at a concrete two-parameter call. -/
theorem adam_update_isolation_and_order_independence_witness :
    ((exampleAdam.updateOne "a" t0).updateOne "b" t0 =
      (exampleAdam.updateOne "b" t0).updateOne "a" t0) ∧
    (exampleAdam.applyGradients [("a", t0), ("b", t0)] =
      exampleAdam.applyGradients [("b", t0), ("a", t0)]) ∧
    ((exampleAdam.updateOne "a" t0).accumulatedFirstMoment "b" =
      exampleAdam.accumulatedFirstMoment "b") :=
  ⟨adam_update_isolation_and_order_independence.2.2.1 exampleAdam "a" "b" t0 t0
      (by decide),
    adam_update_isolation_and_order_independence.2.2.2 exampleAdam
      [("a", t0), ("b", t0)] [("b", t0), ("a", t0)]
      (List.Perm.swap ("b", t0) ("a", t0) []) (by simp),
    (adam_update_isolation_and_order_independence.1 exampleAdam "a" t0 "b"
      (by decide)).1⟩

lemma smul_zerosLike (c : ℝ) (v : Tensor) :
    Tensor.smul c (Tensor.zerosLike v) = Tensor.zerosLike v :=
  Tensor.ext _ _ rfl (map_smul_map_zero c v.data)

lemma zerosLike_add_zerosLike (v : Tensor) :
    (Tensor.zerosLike v).add (Tensor.zerosLike v) = Tensor.zerosLike v := by
  refine Tensor.ext _ _ rfl ?_
  rw [Tensor.data_add, Tensor.data_zerosLike, zipWith_map_same]
  simp

lemma square_zerosLike (v : Tensor) :
    (Tensor.zerosLike v).square = Tensor.zerosLike v := by
  refine Tensor.ext _ _ rfl ?_
  rw [Tensor.data_square, Tensor.data_zerosLike, List.map_map]
  simp [Function.comp_def]

lemma divc_zerosLike (v : Tensor) (c : ℝ) :
    (Tensor.zerosLike v).divc c = Tensor.zerosLike v := by
  refine Tensor.ext _ _ rfl ?_
  rw [Tensor.data_divc, Tensor.data_zerosLike, List.map_map]
  simp [Function.comp_def]

lemma sqrt_zerosLike (v : Tensor) :
    (Tensor.zerosLike v).sqrt = Tensor.zerosLike v := by
  refine Tensor.ext _ _ rfl ?_
  rw [Tensor.data_sqrt, Tensor.data_zerosLike, List.map_map]
  simp [Function.comp_def]

lemma div_zerosLike_map (v : Tensor) (f : ℝ → ℝ) (b : Tensor)
    (hb : b.data = v.data.map f) :
    (Tensor.zerosLike v).div b = Tensor.zerosLike v := by
  refine Tensor.ext _ _ rfl ?_
  rw [Tensor.data_div, Tensor.data_zerosLike, hb, zipWith_map_same]
  simp

lemma zerosLike_add_self (v : Tensor) : (Tensor.zerosLike v).add v = v := by
  refine Tensor.ext _ _ rfl ?_
  rw [Tensor.data_add, Tensor.data_zerosLike]
  exact zipWith_add_map_zero_left v.data v.data rfl

lemma updateOne_zero_grad (s : AdamState) (p : String) (v0 : Tensor)
    (hv : s.registeredVariables p = v0)
    (hf : s.accumulatedFirstMoment p = none ∨
      s.accumulatedFirstMoment p = some (Tensor.zerosLike v0))
    (hs2 : s.accumulatedSecondMoment p = none ∨
      s.accumulatedSecondMoment p = some (Tensor.zerosLike v0)) :
    (s.updateOne p (Tensor.zerosLike v0)).registeredVariables p = v0 ∧
    (s.updateOne p (Tensor.zerosLike v0)).accumulatedFirstMoment p =
      some (Tensor.zerosLike v0) ∧
    (s.updateOne p (Tensor.zerosLike v0)).accumulatedSecondMoment p =
      some (Tensor.zerosLike v0) := by
  have hfm : (s.accumulatedFirstMoment p).getD
      (Tensor.zerosLike (s.registeredVariables p)) = Tensor.zerosLike v0 := by
    rcases hf with h | h <;> simp [h, hv]
  have hsm : (s.accumulatedSecondMoment p).getD
      (Tensor.zerosLike (s.registeredVariables p)) = Tensor.zerosLike v0 := by
    rcases hs2 with h | h <;> simp [h, hv]
  have hnf : newFirstMomentOf s p (Tensor.zerosLike v0) = Tensor.zerosLike v0 := by
    rw [newFirstMomentOf, hfm, smul_zerosLike, smul_zerosLike, zerosLike_add_zerosLike]
  have hns : newSecondMomentOf s p (Tensor.zerosLike v0) = Tensor.zerosLike v0 := by
    rw [newSecondMomentOf, hsm, square_zerosLike, smul_zerosLike, smul_zerosLike,
      zerosLike_add_zerosLike]
  have hnv : newValueOf s p (Tensor.zerosLike v0) = v0 := by
    rw [newValueOf, hnf, hns, divc_zerosLike, divc_zerosLike, sqrt_zerosLike,
      div_zerosLike_map v0 ((fun x => s.eps + x) ∘ (fun _ => 0))
        (Tensor.scalarAdd s.eps (Tensor.zerosLike v0))
        (by rw [Tensor.data_scalarAdd, Tensor.data_zerosLike, List.map_map]),
      smul_zerosLike, hv, zerosLike_add_self]
  exact ⟨by rw [updateOne_vars_at, hnv], by rw [updateOne_firstMoment_at, hnf],
    by rw [updateOne_secondMoment_at, hns]⟩

lemma applyGradients_zero_grad (s : AdamState) (p : String) (v0 : Tensor)
    (call : List (String × Tensor))
    (hcall : ∀ q ∈ call, q.1 = p → q.2 = Tensor.zerosLike v0)
    (hv : s.registeredVariables p = v0)
    (hf : s.accumulatedFirstMoment p = none ∨
      s.accumulatedFirstMoment p = some (Tensor.zerosLike v0))
    (hs2 : s.accumulatedSecondMoment p = none ∨
      s.accumulatedSecondMoment p = some (Tensor.zerosLike v0)) :
    (s.applyGradients call).registeredVariables p = v0 ∧
    ((s.applyGradients call).accumulatedFirstMoment p = none ∨
      (s.applyGradients call).accumulatedFirstMoment p =
        some (Tensor.zerosLike v0)) ∧
    ((s.applyGradients call).accumulatedSecondMoment p = none ∨
      (s.applyGradients call).accumulatedSecondMoment p =
        some (Tensor.zerosLike v0)) := by
  have hfold : ∀ (l : List (String × Tensor)) (t : AdamState),
      (∀ q ∈ l, q.1 = p → q.2 = Tensor.zerosLike v0) →
      t.registeredVariables p = v0 →
      (t.accumulatedFirstMoment p = none ∨
        t.accumulatedFirstMoment p = some (Tensor.zerosLike v0)) →
      (t.accumulatedSecondMoment p = none ∨
        t.accumulatedSecondMoment p = some (Tensor.zerosLike v0)) →
      (l.foldl (fun u q => u.updateOne q.1 q.2) t).registeredVariables p = v0 ∧
      ((l.foldl (fun u q => u.updateOne q.1 q.2) t).accumulatedFirstMoment p = none ∨
        (l.foldl (fun u q => u.updateOne q.1 q.2) t).accumulatedFirstMoment p =
          some (Tensor.zerosLike v0)) ∧
      ((l.foldl (fun u q => u.updateOne q.1 q.2) t).accumulatedSecondMoment p = none ∨
        (l.foldl (fun u q => u.updateOne q.1 q.2) t).accumulatedSecondMoment p =
          some (Tensor.zerosLike v0)) := by
    intro l
    induction l with
    | nil => intro t _ h1 h2 h3; exact ⟨h1, h2, h3⟩
    | cons q l ih =>
      intro t hl h1 h2 h3
      simp only [List.foldl_cons]
      by_cases hq : q.1 = p
      · have hg : q.2 = Tensor.zerosLike v0 := hl q (List.mem_cons_self q l) hq
        rw [hq, hg] at *
        obtain ⟨u1, u2, u3⟩ := updateOne_zero_grad t p v0 h1 h2 h3
        exact ih (t.updateOne p (Tensor.zerosLike v0))
          (fun r hr => hl r (List.mem_cons_of_mem q hr)) u1 (Or.inr u2) (Or.inr u3)
      · have hne : p ≠ q.1 := fun hc => hq hc.symm
        exact ih (t.updateOne q.1 q.2)
          (fun r hr => hl r (List.mem_cons_of_mem q hr))
          (by rw [updateOne_vars_ne t q.1 q.2 p hne]; exact h1)
          (by rw [updateOne_firstMoment_ne t q.1 q.2 p hne]; exact h2)
          (by rw [updateOne_secondMoment_ne t q.1 q.2 p hne]; exact h3)
  have := hfold call s hcall hv hf hs2
  simpa only [AdamState.applyGradients] using this

/-- Claim C5: from a fresh optimizer, a parameter whose gradient is the zero
tensor in every one of `N` consecutive `applyGradients` calls keeps its
initial value after all `N` calls (and after every prefix of them), and its
moment entries remain absent or zero throughout. -/
theorem adam_zero_gradient_fixpoint
    (learningRate beta1 beta2 epsilon : ℝ) (vars0 : String → Tensor) (p : String)
    (calls : List (List (String × Tensor)))
    (hb1 : 0 < beta1) (hb1' : beta1 < 1) (hb2 : 0 < beta2) (hb2' : beta2 < 1)
    (heps : 0 < epsilon)
    (hz : ∀ call ∈ calls, ∀ q ∈ call, q.1 = p → q.2 = Tensor.zerosLike (vars0 p)) :
    ∀ k : ℕ,
      ((calls.take k).foldl AdamState.applyGradients
          (AdamOptimizer learningRate beta1 beta2 epsilon vars0)).registeredVariables
        p = vars0 p ∧
      (((calls.take k).foldl AdamState.applyGradients
          (AdamOptimizer learningRate beta1 beta2 epsilon vars0)).accumulatedFirstMoment
          p = none ∨
        ((calls.take k).foldl AdamState.applyGradients
          (AdamOptimizer learningRate beta1 beta2 epsilon vars0)).accumulatedFirstMoment
          p = some (Tensor.zerosLike (vars0 p))) ∧
      (((calls.take k).foldl AdamState.applyGradients
          (AdamOptimizer learningRate beta1 beta2 epsilon vars0)).accumulatedSecondMoment
          p = none ∨
        ((calls.take k).foldl AdamState.applyGradients
          (AdamOptimizer learningRate beta1 beta2 epsilon vars0)).accumulatedSecondMoment
          p = some (Tensor.zerosLike (vars0 p))) := by
  intro k
  have hmain : ∀ (cs : List (List (String × Tensor))) (t : AdamState),
      (∀ call ∈ cs, ∀ q ∈ call, q.1 = p → q.2 = Tensor.zerosLike (vars0 p)) →
      t.registeredVariables p = vars0 p →
      (t.accumulatedFirstMoment p = none ∨
        t.accumulatedFirstMoment p = some (Tensor.zerosLike (vars0 p))) →
      (t.accumulatedSecondMoment p = none ∨
        t.accumulatedSecondMoment p = some (Tensor.zerosLike (vars0 p))) →
      (cs.foldl AdamState.applyGradients t).registeredVariables p = vars0 p ∧
      ((cs.foldl AdamState.applyGradients t).accumulatedFirstMoment p = none ∨
        (cs.foldl AdamState.applyGradients t).accumulatedFirstMoment p =
          some (Tensor.zerosLike (vars0 p))) ∧
      ((cs.foldl AdamState.applyGradients t).accumulatedSecondMoment p = none ∨
        (cs.foldl AdamState.applyGradients t).accumulatedSecondMoment p =
          some (Tensor.zerosLike (vars0 p))) := by
    intro cs
    induction cs with
    | nil => intro t _ h1 h2 h3; exact ⟨h1, h2, h3⟩
    | cons c cs ih =>
      intro t hcs h1 h2 h3
      simp only [List.foldl_cons]
      obtain ⟨u1, u2, u3⟩ := applyGradients_zero_grad t p (vars0 p) c
        (hcs c (List.mem_cons_self c cs)) h1 h2 h3
      exact ih (t.applyGradients c)
        (fun d hd => hcs d (List.mem_cons_of_mem c hd)) u1 u2 u3
  exact hmain (calls.take k) (AdamOptimizer learningRate beta1 beta2 epsilon vars0)
    (fun call hc => hz call (List.take_subset k calls hc)) rfl (Or.inl rfl) (Or.inl rfl)

/-- Witness for C5: one call with a zero gradient on a concrete fresh
optimizer leaves the parameter's value unchanged. -/
theorem adam_zero_gradient_fixpoint_witness :
    (([[("p", Tensor.zerosLike t0)]].take 1).foldl AdamState.applyGradients
        (AdamOptimizer 1 (1/2) (1/2) 1 (fun _ => t0))).registeredVariables
      "p" = (fun _ : String => t0) "p" :=
  (adam_zero_gradient_fixpoint 1 (1/2) (1/2) 1 (fun _ => t0) "p"
    [[("p", Tensor.zerosLike t0)]] (by norm_num) (by norm_num) (by norm_num)
    (by norm_num) (by norm_num)
    (by
      intro call hc q hq hp1
      rw [List.mem_singleton] at hc
      subst hc
      rw [List.mem_singleton] at hq
      subst hq
      rfl) 1).1

lemma newFirstMomentOf_shape (s : AdamState) (n : String) (g : Tensor) :
    (newFirstMomentOf s n g).shape =
      ((s.accumulatedFirstMoment n).getD
        (Tensor.zerosLike (s.registeredVariables n))).shape := rfl

lemma newSecondMomentOf_shape (s : AdamState) (n : String) (g : Tensor) :
    (newSecondMomentOf s n g).shape =
      ((s.accumulatedSecondMoment n).getD
        (Tensor.zerosLike (s.registeredVariables n))).shape := rfl

lemma newValueOf_shape (s : AdamState) (n : String) (g : Tensor) :
    (newValueOf s n g).shape = (newFirstMomentOf s n g).shape := rfl

lemma updateOne_MomentInvariant (s : AdamState) (n : String) (g : Tensor)
    (h : MomentInvariant s) : MomentInvariant (s.updateOne n g) := by
  intro m
  by_cases hm : m = n
  · subst hm
    rw [updateOne_firstMoment_at, updateOne_secondMoment_at, updateOne_vars_at]
    have hshapes : (newFirstMomentOf s m g).shape = (newValueOf s m g).shape ∧
        (newSecondMomentOf s m g).shape = (newValueOf s m g).shape := by
      rw [newValueOf_shape, newFirstMomentOf_shape, newSecondMomentOf_shape]
      rcases hfm : s.accumulatedFirstMoment m with _ | t
      · rcases hsm : s.accumulatedSecondMoment m with _ | u
        · simp
        · exact absurd ((h m).1.mpr (by simp [hsm])) (by simp [hfm])
      · rcases hsm : s.accumulatedSecondMoment m with _ | u
        · exact absurd ((h m).1.mp (by simp [hfm])) (by simp [hsm])
        · have ht := (h m).2.1 t hfm
          have hu := (h m).2.2 u hsm
          simp [ht, hu]
    refine ⟨by simp, ?_, ?_⟩
    · intro t ht
      cases ht
      exact hshapes.1
    · intro t ht
      cases ht
      exact hshapes.2
  · have hne : m ≠ n := hm
    rw [updateOne_firstMoment_ne s n g m hne, updateOne_secondMoment_ne s n g m hne,
      updateOne_vars_ne s n g m hne]
    exact h m

lemma foldl_updateOne_MomentInvariant (l : List (String × Tensor)) (t : AdamState)
    (h : MomentInvariant t) :
    MomentInvariant (l.foldl (fun u q => u.updateOne q.1 q.2) t) := by
  induction l generalizing t with
  | nil => exact h
  | cons q l ih =>
    simp only [List.foldl_cons]
    exact ih (t.updateOne q.1 q.2) (updateOne_MomentInvariant t q.1 q.2 h)

lemma applyGradients_MomentInvariant (s : AdamState) (grads : List (String × Tensor))
    (h : MomentInvariant s) : MomentInvariant (s.applyGradients grads) := by
  intro m
  have hfold := foldl_updateOne_MomentInvariant grads s h m
  simpa only [AdamState.applyGradients] using hfold

lemma updateOne_firstMoment_isSome_mono (s : AdamState) (n : String) (g : Tensor)
    (m : String) (h : (s.accumulatedFirstMoment m).isSome) :
    ((s.updateOne n g).accumulatedFirstMoment m).isSome := by
  by_cases hm : m = n
  · subst hm; rw [updateOne_firstMoment_at]; rfl
  · rw [updateOne_firstMoment_ne s n g m hm]; exact h

lemma updateOne_secondMoment_isSome_mono (s : AdamState) (n : String) (g : Tensor)
    (m : String) (h : (s.accumulatedSecondMoment m).isSome) :
    ((s.updateOne n g).accumulatedSecondMoment m).isSome := by
  by_cases hm : m = n
  · subst hm; rw [updateOne_secondMoment_at]; rfl
  · rw [updateOne_secondMoment_ne s n g m hm]; exact h

lemma foldl_updateOne_isSome_mono (l : List (String × Tensor)) (t : AdamState)
    (m : String) :
    ((t.accumulatedFirstMoment m).isSome →
      ((l.foldl (fun u q => u.updateOne q.1 q.2) t).accumulatedFirstMoment m).isSome) ∧
    ((t.accumulatedSecondMoment m).isSome →
      ((l.foldl (fun u q => u.updateOne q.1 q.2) t).accumulatedSecondMoment m).isSome) := by
  induction l generalizing t with
  | nil => exact ⟨id, id⟩
  | cons q l ih =>
    simp only [List.foldl_cons]
    exact ⟨fun h => (ih (t.updateOne q.1 q.2) ).1
        (updateOne_firstMoment_isSome_mono t q.1 q.2 m h),
      fun h => (ih (t.updateOne q.1 q.2)).2
        (updateOne_secondMoment_isSome_mono t q.1 q.2 m h)⟩

lemma foldl_updateOne_mem_isSome (l : List (String × Tensor)) (t : AdamState)
    (q : String × Tensor) (hq : q ∈ l) :
    ((l.foldl (fun u r => u.updateOne r.1 r.2) t).accumulatedFirstMoment q.1).isSome ∧
    ((l.foldl (fun u r => u.updateOne r.1 r.2) t).accumulatedSecondMoment q.1).isSome := by
  induction l generalizing t with
  | nil => cases hq
  | cons r l ih =>
    simp only [List.foldl_cons]
    rcases List.mem_cons.mp hq with hq | hq
    · subst hq
      refine ⟨(foldl_updateOne_isSome_mono l (t.updateOne q.1 q.2) q.1).1 ?_,
        (foldl_updateOne_isSome_mono l (t.updateOne q.1 q.2) q.1).2 ?_⟩
      · rw [updateOne_firstMoment_at]; rfl
      · rw [updateOne_secondMoment_at]; rfl
    · exact ih (t.updateOne r.1 r.2) hq

/-- Claim C6: a fresh optimizer satisfies the moment-map invariant; every
`applyGradients` call preserves it; after a call every name in the call's
gradient map has exactly one first- and one second-moment entry (shaped like
the parameter's value, by the invariant); existing entries are never removed;
and on a name's first appearance the stored moment is computed from a zero
tensor shaped like the parameter's current value. -/
theorem adam_moment_map_invariant :
    (∀ (learningRate beta1 beta2 epsilon : ℝ) (vars0 : String → Tensor),
      MomentInvariant (AdamOptimizer learningRate beta1 beta2 epsilon vars0)) ∧
    (∀ (s : AdamState) (grads : List (String × Tensor)),
      MomentInvariant s → MomentInvariant (s.applyGradients grads)) ∧
    (∀ (s : AdamState) (grads : List (String × Tensor)) (q : String × Tensor),
      q ∈ grads →
      ((s.applyGradients grads).accumulatedFirstMoment q.1).isSome ∧
      ((s.applyGradients grads).accumulatedSecondMoment q.1).isSome) ∧
    (∀ (s : AdamState) (grads : List (String × Tensor)) (m : String),
      ((s.accumulatedFirstMoment m).isSome →
        ((s.applyGradients grads).accumulatedFirstMoment m).isSome) ∧
      ((s.accumulatedSecondMoment m).isSome →
        ((s.applyGradients grads).accumulatedSecondMoment m).isSome)) ∧
    (∀ (s : AdamState) (n : String) (g : Tensor),
      s.accumulatedFirstMoment n = none →
      (s.updateOne n g).accumulatedFirstMoment n =
        some ((Tensor.smul s.beta1
            (Tensor.zerosLike (s.registeredVariables n))).add
          (Tensor.smul (s.one - s.beta1) g))) ∧
    (∀ (s : AdamState) (n : String) (g : Tensor),
      s.accumulatedSecondMoment n = none →
      (s.updateOne n g).accumulatedSecondMoment n =
        some ((Tensor.smul s.beta2
            (Tensor.zerosLike (s.registeredVariables n))).add
          (Tensor.smul (s.one - s.beta2) g.square))) := by
  refine ⟨?_, applyGradients_MomentInvariant, ?_, ?_, ?_, ?_⟩
  · intro lr b1 b2 eps vars0 n
    simp [AdamOptimizer]
  · intro s grads q hq
    have h := foldl_updateOne_mem_isSome grads s q hq
    simpa only [AdamState.applyGradients] using h
  · intro s grads m
    have h := foldl_updateOne_isSome_mono grads s m
    simpa only [AdamState.applyGradients] using h
  · intro s n g h
    rw [updateOne_firstMoment_at, newFirstMomentOf, h]
    rfl
  · intro s n g h
    rw [updateOne_secondMoment_at, newSecondMomentOf, h]
    rfl

/-- Witness for C6: the invariant holds after a concrete call on a concrete
fresh optimizer. -/
theorem adam_moment_map_invariant_witness :
    MomentInvariant (exampleAdam.applyGradients [("p", t0)]) :=
  adam_moment_map_invariant.2.1 exampleAdam [("p", t0)]
    (by intro n; simp [MomentInvariant, exampleAdam, AdamOptimizer])

/-- Claim C9: `applyGradients` is deterministic — from equal optimizer
states (hyperparameters, accumulators, moment maps, variable stores) and
equal gradient maps, the resulting states (hence parameter values) are
equal; the update path has no nondeterministic branch. -/
theorem adam_applyGradients_deterministic (s1 s2 : AdamState)
    (g1 g2 : List (String × Tensor))
    (hc : s1.c = s2.c) (he : s1.eps = s2.eps)
    (hb1 : s1.beta1 = s2.beta1) (hb2 : s1.beta2 = s2.beta2)
    (ha1 : s1.accBeta1 = s2.accBeta1) (ha2 : s1.accBeta2 = s2.accBeta2)
    (ho : s1.one = s2.one)
    (hf1 : s1.accumulatedFirstMoment = s2.accumulatedFirstMoment)
    (hf2 : s1.accumulatedSecondMoment = s2.accumulatedSecondMoment)
    (hv : s1.registeredVariables = s2.registeredVariables)
    (hg : g1 = g2) :
    s1.applyGradients g1 = s2.applyGradients g2 := by
  rw [AdamState.ext' s1 s2 hc he hb1 hb2 ha1 ha2 ho hf1 hf2 hv, hg]

/-- Witness for C9: two syntactically distinct but equal concrete states and
gradient maps produce equal results. -/
theorem adam_applyGradients_deterministic_witness :
    exampleAdam.applyGradients [("p", t0)] =
      (AdamOptimizer 1 (1/2) (1/2) 1 (fun _ => t0)).applyGradients [("p", t0)] :=
  adam_applyGradients_deterministic exampleAdam
    (AdamOptimizer 1 (1/2) (1/2) 1 (fun _ => t0)) [("p", t0)] [("p", t0)]
    rfl rfl rfl rfl rfl rfl rfl rfl rfl rfl rfl

lemma mem_zipWith {f : ℝ → ℝ → ℝ} {a b : List ℝ} {x : ℝ}
    (h : x ∈ List.zipWith f a b) : ∃ u ∈ a, ∃ v ∈ b, x = f u v := by
  induction a generalizing b with
  | nil => simp at h
  | cons p a ih =>
    cases b with
    | nil => simp at h
    | cons q b =>
      rw [List.zipWith_cons_cons, List.mem_cons] at h
      rcases h with h | h
      · exact ⟨p, List.mem_cons_self p a, q, List.mem_cons_self q b, h⟩
      · obtain ⟨u, hu, v, hv, hx⟩ := ih h
        exact ⟨u, List.mem_cons_of_mem p hu, v, List.mem_cons_of_mem q hv, hx⟩

lemma getD_nonneg (s : AdamState) (n : String)
    (h : SecondMomentNonneg s) :
    ∀ x ∈ ((s.accumulatedSecondMoment n).getD
      (Tensor.zerosLike (s.registeredVariables n))).data, 0 ≤ x := by
  rcases hm : s.accumulatedSecondMoment n with _ | t
  · intro x hx
    simp only [Option.getD_none, Tensor.data_zerosLike, List.mem_map] at hx
    obtain ⟨y, _, hy⟩ := hx
    exact le_of_eq hy
  · intro x hx
    simp only [Option.getD_some] at hx
    exact h n t hm x hx

lemma updateOne_SecondMomentNonneg (s : AdamState) (n : String) (g : Tensor)
    (hb2 : 0 ≤ s.beta2) (hb2' : s.beta2 ≤ s.one)
    (h : SecondMomentNonneg s) : SecondMomentNonneg (s.updateOne n g) := by
  intro m t hm x hx
  by_cases hmn : m = n
  · subst hmn
    rw [updateOne_secondMoment_at] at hm
    cases hm
    rw [newSecondMomentOf, Tensor.data_add] at hx
    obtain ⟨u, hu, v, hv, hx⟩ := mem_zipWith hx
    simp only [Tensor.data_smul, List.mem_map] at hu hv
    obtain ⟨a, ha, hua⟩ := hu
    obtain ⟨b, hb, hvb⟩ := hv
    have ha0 : 0 ≤ a := getD_nonneg s m h a ha
    have hb0 : 0 ≤ b := by
      simp only [Tensor.data_square, List.mem_map] at hb
      obtain ⟨y, _, hy⟩ := hb
      rw [← hy]
      exact mul_self_nonneg y
    rw [hx, ← hua, ← hvb]
    have h1 : 0 ≤ s.beta2 * a := mul_nonneg hb2 ha0
    have h2 : 0 ≤ (s.one - s.beta2) * b :=
      mul_nonneg (by linarith) hb0
    linarith
  · rw [updateOne_secondMoment_ne s n g m hmn] at hm
    exact h m t hm x hx

lemma applyGradients_SecondMomentNonneg (s : AdamState)
    (call : List (String × Tensor))
    (hb2 : 0 ≤ s.beta2) (hb2' : s.beta2 ≤ s.one)
    (h : SecondMomentNonneg s) : SecondMomentNonneg (s.applyGradients call) := by
  have hfold : ∀ (l : List (String × Tensor)) (t : AdamState),
      0 ≤ t.beta2 → t.beta2 ≤ t.one → SecondMomentNonneg t →
      SecondMomentNonneg (l.foldl (fun u q => u.updateOne q.1 q.2) t) := by
    intro l
    induction l with
    | nil => intro t _ _ ht; exact ht
    | cons q l ih =>
      intro t h1 h2 ht
      simp only [List.foldl_cons]
      exact ih (t.updateOne q.1 q.2) (by simpa using h1) (by simpa using h2)
        (updateOne_SecondMomentNonneg t q.1 q.2 h1 h2 ht)
  intro m t hm
  exact hfold call s hb2 hb2' h m t (by simpa only [AdamState.applyGradients] using hm)

lemma foldl_applyGradients_eps (calls : List (List (String × Tensor))) (s : AdamState) :
    (calls.foldl AdamState.applyGradients s).eps = s.eps := by
  induction calls generalizing s with
  | nil => rfl
  | cons c calls ih => simp [List.foldl_cons, ih]

lemma foldl_applyGradients_one (calls : List (List (String × Tensor))) (s : AdamState) :
    (calls.foldl AdamState.applyGradients s).one = s.one := by
  induction calls generalizing s with
  | nil => rfl
  | cons c calls ih => simp [List.foldl_cons, ih]

lemma foldl_applyGradients_SecondMomentNonneg
    (calls : List (List (String × Tensor))) (s : AdamState)
    (hb2 : 0 ≤ s.beta2) (hb2' : s.beta2 ≤ s.one)
    (h : SecondMomentNonneg s) :
    SecondMomentNonneg (calls.foldl AdamState.applyGradients s) := by
  induction calls generalizing s with
  | nil => exact h
  | cons c calls ih =>
    simp only [List.foldl_cons]
    exact ih (s.applyGradients c) (by simpa using hb2) (by simpa using hb2')
      (applyGradients_SecondMomentNonneg s c hb2 hb2' h)

/-- Claim C10: under the constructor preconditions, after any finite number
of `applyGradients` calls the bias-correction denominators `1 - accBeta1`
and `1 - accBeta2` are nonzero (the accumulators stay in `(0,1)`), every
stored second-moment tensor stays elementwise nonnegative, and every element
of the tensor `epsilon + sqrt(biasCorrectedSecond)` that divides the next
step is strictly positive. -/
theorem adam_division_denominators_nonzero
    (learningRate beta1 beta2 epsilon : ℝ) (vars0 : String → Tensor)
    (calls : List (List (String × Tensor)))
    (hb1 : 0 < beta1) (hb1' : beta1 < 1) (hb2 : 0 < beta2) (hb2' : beta2 < 1)
    (heps : 0 < epsilon) :
    (0 < 1 - (calls.foldl AdamState.applyGradients
        (AdamOptimizer learningRate beta1 beta2 epsilon vars0)).accBeta1 ∧
      1 - (calls.foldl AdamState.applyGradients
        (AdamOptimizer learningRate beta1 beta2 epsilon vars0)).accBeta1 ≠ 0) ∧
    (0 < 1 - (calls.foldl AdamState.applyGradients
        (AdamOptimizer learningRate beta1 beta2 epsilon vars0)).accBeta2 ∧
      1 - (calls.foldl AdamState.applyGradients
        (AdamOptimizer learningRate beta1 beta2 epsilon vars0)).accBeta2 ≠ 0) ∧
    SecondMomentNonneg (calls.foldl AdamState.applyGradients
      (AdamOptimizer learningRate beta1 beta2 epsilon vars0)) ∧
    (∀ (n : String) (g : Tensor), ∀ x ∈
      (Tensor.scalarAdd
        (calls.foldl AdamState.applyGradients
          (AdamOptimizer learningRate beta1 beta2 epsilon vars0)).eps
        (((newSecondMomentOf (calls.foldl AdamState.applyGradients
              (AdamOptimizer learningRate beta1 beta2 epsilon vars0)) n g).divc
            ((calls.foldl AdamState.applyGradients
              (AdamOptimizer learningRate beta1 beta2 epsilon vars0)).one -
             (calls.foldl AdamState.applyGradients
              (AdamOptimizer learningRate beta1 beta2 epsilon vars0)).accBeta2)).sqrt)).data,
      0 < x) := by
  have hacc1 : (calls.foldl AdamState.applyGradients
      (AdamOptimizer learningRate beta1 beta2 epsilon vars0)).accBeta1 =
      beta1 ^ (calls.length + 1) := by
    rw [foldl_applyGradients_accBeta1]
    simp [AdamOptimizer, pow_succ, mul_comm]
  have hacc2 : (calls.foldl AdamState.applyGradients
      (AdamOptimizer learningRate beta1 beta2 epsilon vars0)).accBeta2 =
      beta2 ^ (calls.length + 1) := by
    rw [foldl_applyGradients_accBeta2]
    simp [AdamOptimizer, pow_succ, mul_comm]
  have hp1 : beta1 ^ (calls.length + 1) < 1 :=
    pow_lt_one₀ (le_of_lt hb1) hb1' (Nat.succ_ne_zero _)
  have hp2 : beta2 ^ (calls.length + 1) < 1 :=
    pow_lt_one₀ (le_of_lt hb2) hb2' (Nat.succ_ne_zero _)
  refine ⟨⟨by rw [hacc1]; linarith, by rw [hacc1]; intro hc; linarith⟩,
    ⟨by rw [hacc2]; linarith, by rw [hacc2]; intro hc; linarith⟩, ?_, ?_⟩
  · exact foldl_applyGradients_SecondMomentNonneg calls _
      (by simp [AdamOptimizer]; linarith) (by simp [AdamOptimizer]; linarith)
      (by intro m t hm; simp [AdamOptimizer] at hm)
  · intro n g x hx
    rw [foldl_applyGradients_eps] at hx
    simp only [Tensor.data_scalarAdd, Tensor.data_sqrt, List.map_map,
      List.mem_map, Function.comp_def] at hx
    obtain ⟨y, _, hy⟩ := hx
    have he : (AdamOptimizer learningRate beta1 beta2 epsilon vars0).eps = epsilon := rfl
    rw [he] at hy
    rw [← hy]
    have := Real.sqrt_nonneg y
    linarith

/-- Witness for C10 at concrete valid hyperparameters. -/
theorem adam_division_denominators_nonzero_witness :
    0 < 1 - (([] : List (List (String × Tensor))).foldl AdamState.applyGradients
      (AdamOptimizer 1 (1/2) (1/2) 1 (fun _ => t0))).accBeta1 :=
  (adam_division_denominators_nonzero 1 (1/2) (1/2) 1 (fun _ => t0) []
    (by norm_num) (by norm_num) (by norm_num) (by norm_num) (by norm_num)).1.1

lemma one_smul_tensor (t : Tensor) : Tensor.smul 1 t = t := by
  refine Tensor.ext _ _ rfl ?_
  simp

/-- Claim C8: the graph-execution update of `afterBatch` computes, per
variable node, the same formulas as the eager `applyGradients` path — the
same moment recurrences, the same bias correction by the pre-advance
accumulators, and the same parameter step — with `scaledArrayAdd`
interpreted as `scaleA*a + scaleB*b`; it differs only in sourcing values,
gradients and moments from the per-node graph-state stores (and in using the
externally supplied step scalar `cGraph`), and it advances the accumulators
once per batch exactly as the eager path does. -/
theorem adam_afterBatch_matches_eager (s se : AdamState) (cGraph : ℝ)
    (gm : GraphBatchState) (k : ℕ) (name : String)
    (hone : s.one = 1)
    (hse : se = { s with
      c := cGraph
      accumulatedFirstMoment := fun _ => some (gm.firstMomentGraph k)
      accumulatedSecondMoment := fun _ => some (gm.secondMomentGraph k)
      registeredVariables := fun _ => gm.activationArrayMap k }) :
    (s.afterBatchNode cGraph gm k).activationArrayMap k =
      (se.updateOne name (gm.variableGradients k)).registeredVariables name ∧
    some ((s.afterBatchNode cGraph gm k).firstMomentGraph k) =
      (se.updateOne name (gm.variableGradients k)).accumulatedFirstMoment name ∧
    some ((s.afterBatchNode cGraph gm k).secondMomentGraph k) =
      (se.updateOne name (gm.variableGradients k)).accumulatedSecondMoment name ∧
    (∀ (nodes : List ℕ) (gm' : GraphBatchState),
      (s.afterBatch cGraph nodes gm').1.accBeta1 = s.accBeta1 * s.beta1 ∧
      (s.afterBatch cGraph nodes gm').1.accBeta2 = s.accBeta2 * s.beta2) := by
  subst hse
  have hfm : ((fun (_ : String) => some (gm.firstMomentGraph k)) name).getD
      (Tensor.zerosLike (gm.activationArrayMap k)) = gm.firstMomentGraph k := rfl
  refine ⟨?_, ?_, ?_, fun nodes gm' => ⟨rfl, rfl⟩⟩
  · rw [updateOne_vars_at]
    show (s.afterBatchNode cGraph gm k).activationArrayMap k = _
    rw [AdamState.afterBatchNode]
    simp only [Function.update_same]
    rw [newValueOf, newFirstMomentOf, newSecondMomentOf]
    show scaledArrayAdd cGraph _ s.one (gm.activationArrayMap k) = _
    rw [scaledArrayAdd, scaledArrayAdd, scaledArrayAdd, hone, one_smul_tensor]
    rfl
  · rw [updateOne_firstMoment_at]
    show some ((s.afterBatchNode cGraph gm k).firstMomentGraph k) = _
    rw [AdamState.afterBatchNode]
    simp only [Function.update_same]
    rw [newFirstMomentOf, scaledArrayAdd]
    rfl
  · rw [updateOne_secondMoment_at]
    show some ((s.afterBatchNode cGraph gm k).secondMomentGraph k) = _
    rw [AdamState.afterBatchNode]
    simp only [Function.update_same]
    rw [newSecondMomentOf, scaledArrayAdd]
    rfl

/-- Witness for C8 at a concrete state, node and graph store. -/
theorem adam_afterBatch_matches_eager_witness :
    (exampleAdam.afterBatchNode (-1) ⟨fun _ => t0, fun _ => t0, fun _ => t0,
        fun _ => t0⟩ 0).activationArrayMap 0 =
      (({ exampleAdam with
          c := -1
          accumulatedFirstMoment := fun _ => some t0
          accumulatedSecondMoment := fun _ => some t0
          registeredVariables := fun _ => t0 } : AdamState).updateOne "p"
        t0).registeredVariables "p" :=
  (adam_afterBatch_matches_eager exampleAdam
    { exampleAdam with
      c := -1
      accumulatedFirstMoment := fun _ => some t0
      accumulatedSecondMoment := fun _ => some t0
      registeredVariables := fun _ => t0 }
    (-1) ⟨fun _ => t0, fun _ => t0, fun _ => t0, fun _ => t0⟩ 0 "p" rfl rfl).1

end TfjsAdam
